import Mathlib

/-!  Verification of the RLPx session codec of `src/rplx.rs`: frame
encoding/decoding with running-MAC bookkeeping, and the session state
machine driven by the stream `encode`/`decode` entry points.

Bytes are modelled as naturals.  The ambient cryptographic libraries
(AES-CTR keystreams, the Keccak256 digest, the AES block cipher keyed by
the mac-secret) are modelled as abstract functions: a keystream is a byte
function of the absolute stream position together with the current
position (`apply_keystream` XORs the data with successive keystream bytes
and advances the position), a running Keccak accumulator is the byte
sequence absorbed so far (the source's clone-then-finalize peek is the
digest function applied to that sequence), and the mac-secret block
cipher is an arbitrary function on 16-byte blocks.

The repository's `src/ecies.rs` (Key-Exchange Provider) and
`src/messages.rs` (Message Catalog) are not available; they are modelled
from the spec where `rplx.rs` consumes them (see the doc comments marked
"Modelled from the spec").  -/

namespace RethHandshake

abbrev Byte := Nat

/-- XOR a byte list with keystream bytes `f p, f (p+1), ...`
(the body of `apply_keystream`). -/
def ksBytes (f : Nat → Byte) : Nat → List Byte → List Byte
  | _, [] => []
  | p, b :: rest => (b ^^^ f p) :: ksBytes f (p + 1) rest

/-- AES-CTR keystream state: `f i` is the keystream byte at absolute
position `i`, `pos` the number of bytes already consumed.  The cipher
state advances exactly once per byte processed. -/
structure Keystream where
  f : Nat → Byte
  pos : Nat

/-- Model of `apply_keystream`: XOR the data in place, advance the state. -/
def Keystream.apply (k : Keystream) (data : List Byte) : Keystream × List Byte :=
  (⟨k.f, k.pos + data.length⟩, ksBytes k.f k.pos data)

/-- Modelled from the spec: the secrets bundle produced by the
Key-Exchange Provider (`src/ecies.rs` is absent; the field set is the one
`rplx.rs` uses): two directional AES-CTR keystreams, the two running
Keccak256 MAC accumulators (modelled by the byte sequence absorbed so
far), and the mac-secret AES block cipher. -/
structure HandshakeSecrets where
  aes_keystream_egress : Keystream
  aes_keystream_ingress : Keystream
  egress_mac : List Byte
  ingress_mac : List Byte
  mac_secret : List Byte → List Byte

inductive ECIESDirection
  | Outgoing
  | Incoming
deriving DecidableEq

/-- Modelled from the spec: the Key-Exchange Provider context
(`src/ecies.rs` is absent).  `auth_request` is the output of
`get_auth_request`; `decryptResult` is the `decrypt` entry point,
returning the plaintext and the number of input bytes consumed, or
`none` on a decryption failure; `secretsOut` is the bundle `get_secrets`
returns once `decrypt` has succeeded. -/
structure ECIES where
  auth_request : List Byte
  decryptResult : List Byte → Option (List Byte × Nat)
  secretsOut : HandshakeSecrets

/-- Ambient cryptographic library functions: the Keccak256 digest (a real
digest is 32 bytes), the secp256k1 public-key derivation used by
`RLPx::new`, the ECIES constructor, and — modelled from the spec, because
`src/messages.rs` is absent — the Hello payload encoder (`Hello::ID`
followed by the RLP encoding of the Hello built from the node id) and the
Hello payload decoder (`none` on an RLP decode failure). -/
structure Crypto where
  keccak : List Byte → List Byte
  pubFromSecret : Nat → Nat
  eciesNew : Nat → Nat → ECIES
  helloEncode : Nat → List Byte
  helloDecode : List Byte → Option Unit

inductive RlpxState
  | ExpectingConnection
  | AuthSent
  | AuthAckRecieved
  | HelloSent
  | HelloRecieved
  | Active
  | Disconnected
deriving DecidableEq

inductive FrameState
  | DecodingHeader
  | DecodingFrame (n : Nat)
deriving DecidableEq

/-- Session messages (payloads of Disconnect/Status are irrelevant to the
codec and omitted; `src/messages.rs` is absent). -/
inductive RLPx_Message
  | Auth
  | AuthAck
  | Hello
  | Disconnect
  | Ping
  | Pong
  | Status
deriving DecidableEq

structure RLPx where
  rlpx_state : RlpxState
  direction : ECIESDirection
  auth_request : List Byte
  ecies : ECIES
  public_key : Nat
  frame_state : FrameState
  secrets : Option HandshakeSecrets

def ZERO_HEADER : List Byte := [0, 0, 148, 194, 128, 128, 0, 0, 0, 0, 0, 0, 0, 0, 0, 0]

def FRAME_HEADER_CIPHERTEXT_SIZE : Nat := 16

def FRAME_MAC_SIZE : Nat := 16

/-- Model of `RLPx::new`. -/
def RLPx.new (C : Crypto) (our_private_key peer_public_key : Nat) : RLPx :=
  { rlpx_state := RlpxState.ExpectingConnection
    direction := ECIESDirection.Outgoing
    auth_request := []
    ecies := C.eciesNew our_private_key peer_public_key
    public_key := C.pubFromSecret our_private_key
    frame_state := FrameState.DecodingHeader
    secrets := none }

/-- Round a length up to the next multiple of 16, as `write_frame` does
with `if len % 16 > 0 { len = (len / 16 + 1) * 16 }`. -/
def pad16 (n : Nat) : Nat := if n % 16 > 0 then (n / 16 + 1) * 16 else n

/-- The plaintext frame header `write_frame` builds: `ZERO_HEADER` with
bytes 1..3 overwritten by `(data.len() as u16).to_be_bytes()` (the `as
u16` cast truncates the length modulo 2^16). -/
def frameHeaderPlain (data : List Byte) : List Byte :=
  [0, data.length % 65536 / 256 % 256, data.length % 65536 % 256] ++ ZERO_HEADER.drop 3

/-- The body with its zero padding up to the next 16-byte boundary
(`out.resize(old_len + len, 0)` then copying `data` in). -/
def padBody (data : List Byte) : List Byte :=
  data ++ List.replicate (pad16 data.length - data.length) 0

/-- The header ciphertext `write_frame` emits: the plaintext header
encrypted with the egress keystream (`apply_keystream` on `header_buf`). -/
def headerCtOf (sec : HandshakeSecrets) (data : List Byte) : List Byte :=
  ksBytes sec.aes_keystream_egress.f sec.aes_keystream_egress.pos (frameHeaderPlain data)

/-- Egress MAC accumulator after `write_frame` folds in the
header-mac-seed (AES of the current digest XORed with the header
ciphertext). -/
def egressMac1 (C : Crypto) (sec : HandshakeSecrets) (data : List Byte) : List Byte :=
  sec.egress_mac ++
    List.zipWith (fun a b => a ^^^ b)
      (sec.mac_secret ((C.keccak sec.egress_mac).take 16)) (headerCtOf sec data)

/-- The header MAC `write_frame` emits. -/
def headerMacOf (C : Crypto) (sec : HandshakeSecrets) (data : List Byte) : List Byte :=
  (C.keccak (egressMac1 C sec data)).take 16

/-- The body ciphertext `write_frame` emits: the zero-padded body
encrypted with the egress keystream continuing after the header's 16
bytes. -/
def frameCtOf (sec : HandshakeSecrets) (data : List Byte) : List Byte :=
  ksBytes sec.aes_keystream_egress.f
    (sec.aes_keystream_egress.pos + (frameHeaderPlain data).length) (padBody data)

/-- Egress MAC accumulator after `write_frame` folds in the body
ciphertext. -/
def egressMac2 (C : Crypto) (sec : HandshakeSecrets) (data : List Byte) : List Byte :=
  egressMac1 C sec data ++ frameCtOf sec data

/-- Egress MAC accumulator after `write_frame` folds in the
frame-mac-seed (AES of the updated digest XORed with that digest). -/
def egressMac3 (C : Crypto) (sec : HandshakeSecrets) (data : List Byte) : List Byte :=
  egressMac2 C sec data ++
    List.zipWith (fun a b => a ^^^ b)
      (sec.mac_secret ((C.keccak (egressMac2 C sec data)).take 16))
      ((C.keccak (egressMac2 C sec data)).take 16)

/-- The frame MAC `write_frame` emits. -/
def frameMacOf (C : Crypto) (sec : HandshakeSecrets) (data : List Byte) : List Byte :=
  (C.keccak (egressMac3 C sec data)).take 16

/-- Model of `RLPx::write_frame` after the `self.secrets.as_mut().unwrap()`:
build and encrypt the header, fold the header-mac-seed into the egress
MAC, emit header ciphertext and header MAC, encrypt the padded body with
the continuing keystream, fold it and the frame-mac-seed into the egress
MAC, emit body ciphertext and frame MAC.  The egress keystream ends up
advanced by the 16 header bytes plus the padded body. -/
def write_frame (C : Crypto) (sec : HandshakeSecrets) (data : List Byte) :
    HandshakeSecrets × List Byte :=
  ({ sec with
      aes_keystream_egress :=
        ⟨sec.aes_keystream_egress.f,
         sec.aes_keystream_egress.pos + (frameHeaderPlain data).length + (padBody data).length⟩
      egress_mac := egressMac3 C sec data },
   headerCtOf sec data ++ headerMacOf C sec data ++ frameCtOf sec data ++ frameMacOf C sec data)

/-- The header-mac-seed `decode_frame_header` computes from the current
ingress MAC digest and the received header ciphertext. -/
def headerMacSeed (C : Crypto) (sec : HandshakeSecrets) (header_ciphertext : List Byte) :
    List Byte :=
  List.zipWith (fun a b => a ^^^ b)
    (sec.mac_secret ((C.keccak sec.ingress_mac).take 16)) header_ciphertext

/-- The header MAC `decode_frame_header` recomputes (digest of the ingress
MAC after folding in the header-mac-seed). -/
def headerMacComputed (C : Crypto) (sec : HandshakeSecrets) (header_ciphertext : List Byte) :
    List Byte :=
  (C.keccak (sec.ingress_mac ++ headerMacSeed C sec header_ciphertext)).take 16

/-- Model of `RLPx::decode_frame_header` after the unwrap of
`self.secrets`: split off 16 bytes of header ciphertext and 16 bytes of
received header MAC, fold the header-mac-seed into the ingress MAC
(this mutation survives even when the MAC check then fails), compare the
recomputed MAC, and on success decrypt the header in place and return the
declared body ciphertext length — `u32::from_be_bytes([0, h[0], h[1],
h[2]])` rounded up to a multiple of 16. -/
def decode_frame_header (C : Crypto) (sec : HandshakeSecrets) (data_in : List Byte) :
    HandshakeSecrets × Except String Nat :=
  if data_in.length < FRAME_HEADER_CIPHERTEXT_SIZE then
    (sec, Except.error "No header ciphertext! ")
  else
    let header_ciphertext := data_in.take 16
    let rest := data_in.drop 16
    if rest.length < FRAME_MAC_SIZE then (sec, Except.error "No header MAC ")
    else
      let header_mac := rest.take 16
      let sec1 := { sec with ingress_mac := sec.ingress_mac ++ headerMacSeed C sec header_ciphertext }
      if headerMacComputed C sec header_ciphertext ≠ header_mac then
        (sec1, Except.error "Header MAC mismatch!")
      else
        let ks := sec1.aes_keystream_ingress.apply header_ciphertext
        let sec2 := { sec1 with aes_keystream_ingress := ks.1 }
        let h := ks.2
        let payload_size := h.getD 0 0 * 65536 + h.getD 1 0 * 256 + h.getD 2 0
        let payload_size :=
          if payload_size % 16 ≠ 0 then (payload_size / 16 + 1) * 16 else payload_size
        (sec2, Except.ok payload_size)

/-- The frame MAC `decode_frame_ciphertext` recomputes: fold the frame
ciphertext into the ingress MAC, derive the frame-mac-seed from the
resulting digest, fold the seed in, take the first 16 digest bytes. -/
def frameMacComputed (C : Crypto) (sec : HandshakeSecrets) (frame_ciphertext : List Byte) :
    List Byte :=
  let mac1 := sec.ingress_mac ++ frame_ciphertext
  let digest := (C.keccak mac1).take 16
  let seed := List.zipWith (fun a b => a ^^^ b) (sec.mac_secret digest) digest
  (C.keccak (mac1 ++ seed)).take 16

/-- Intermediate ingress-MAC state of `decode_frame_ciphertext` after both
updates (ciphertext, then frame-mac-seed); it survives even when the MAC
check then fails. -/
def frameMacAccum (C : Crypto) (sec : HandshakeSecrets) (frame_ciphertext : List Byte) :
    List Byte :=
  let mac1 := sec.ingress_mac ++ frame_ciphertext
  let digest := (C.keccak mac1).take 16
  let seed := List.zipWith (fun a b => a ^^^ b) (sec.mac_secret digest) digest
  mac1 ++ seed

/-- Model of `RLPx::decode_frame_ciphertext` after the unwrap of
`self.secrets`: split the input into ciphertext and trailing 16-byte MAC
(an input shorter than 16 bytes fails the checked split), fold the
ciphertext and the derived frame-mac-seed into the ingress MAC, compare
the recomputed MAC, and only on success decrypt the ciphertext with the
ingress keystream and return it. -/
def decode_frame_ciphertext (C : Crypto) (sec : HandshakeSecrets) (data_in : List Byte) :
    HandshakeSecrets × Except String (List Byte) :=
  if data_in.length < FRAME_MAC_SIZE then
    (sec, Except.error "No frame MAC, invalid frame length ")
  else
    let frame_ciphertext := data_in.take (data_in.length - 16)
    let frame_mac := data_in.drop (data_in.length - 16)
    let sec2 := { sec with ingress_mac := frameMacAccum C sec frame_ciphertext }
    if frameMacComputed C sec frame_ciphertext ≠ frame_mac then
      (sec2, Except.error "Frame MAC mismatch!")
    else
      let ks := sec2.aes_keystream_ingress.apply frame_ciphertext
      ({ sec2 with aes_keystream_ingress := ks.1 }, Except.ok ks.2)

/-- Modelled from the spec: the Message Catalog's one-byte wire identifier
for Hello (`Hello::ID`; `src/messages.rs` is absent). -/
def HelloID : Nat := 0

/-- RLP decoding of the one-byte message-id slice
(`u8::decode(&mut &message_id[..])` on the 1-byte slice `frame.split_at(1)`
produces): a byte below 0x80 is its own value, 0x80 is the canonical
encoding of 0, anything else needs more input and fails. -/
def rlpDecodeU8 (l : List Byte) : Option Nat :=
  match l with
  | [b] => if b < 128 then some b else if b = 128 then some 0 else none
  | _ => none

/-- Outcome of `decode_frame_data`: a decoded message, an RLP decode
error (`Err` returned to `decode_frame`, which unwraps it), a panic
(empty frame, or `hello.unwrap()` on a bad Hello payload), or
`process::exit(0)` on any non-Hello message id. -/
inductive FrameDataResult
  | ok (m : RLPx_Message)
  | rlpErr
  | panicked
  | exited
deriving DecidableEq

/-- Model of `RLPx::decode_frame_data`: split off the first byte
(`split_at(1)` panics on an empty frame), RLP-decode it as the message
id; a Hello id decodes the Hello payload (and panics, via `.unwrap()`, if
that fails); any other id reaches `process::exit(0)`. -/
def decode_frame_data (C : Crypto) (frame : List Byte) : FrameDataResult :=
  if frame.length < 1 then FrameDataResult.panicked
  else
    match rlpDecodeU8 (frame.take 1) with
    | none => FrameDataResult.rlpErr
    | some message_id =>
      if message_id = HelloID then
        match C.helloDecode (frame.drop 1) with
        | some _ => FrameDataResult.ok RLPx_Message.Hello
        | none => FrameDataResult.panicked
      else FrameDataResult.exited

/-- Observable outcome of a `decode`/`decode_frame` call: the returned
value, an `io::Error`, a panic, or process termination. -/
inductive Outcome (α : Type)
  | ok (a : α)
  | ioErr
  | panicked
  | exited
deriving DecidableEq

/-- The `match self.frame_state` half of `decode_frame`: in
`DecodingFrame(n)`, wait for at least `n` buffered bytes, then slice
`src[..n + 16]` — which panics when fewer than `n + 16` bytes are
buffered — decrypt and MAC-check the frame, decode its message id
(unwrapping the result), consume `n + 16` bytes and return to
`DecodingHeader`.  Reaching the match while still in `DecodingHeader` is
the source's unreachable defensive arm and returns an error. -/
def decodeFrameBody (C : Crypto) (s : RLPx) (src : List Byte) :
    RLPx × List Byte × Outcome (Option RLPx_Message) :=
  match s.frame_state, s.secrets with
  | FrameState.DecodingFrame n, some sec =>
    if n ≤ src.length then
      if src.length < n + FRAME_MAC_SIZE then (s, src, Outcome.panicked)
      else
        match decode_frame_ciphertext C sec (src.take (n + FRAME_MAC_SIZE)) with
        | (sec1, Except.error _) => ({ s with secrets := some sec1 }, src, Outcome.ioErr)
        | (sec1, Except.ok pt) =>
          let s1 := { s with secrets := some sec1 }
          match decode_frame_data C pt with
          | FrameDataResult.ok m =>
            ({ s1 with frame_state := FrameState.DecodingHeader },
             src.drop (n + FRAME_MAC_SIZE), Outcome.ok (some m))
          | FrameDataResult.rlpErr => (s1, src, Outcome.panicked)
          | FrameDataResult.panicked => (s1, src, Outcome.panicked)
          | FrameDataResult.exited => (s1, src, Outcome.exited)
    else (s, src, Outcome.ok none)
  | FrameState.DecodingFrame _, none => (s, src, Outcome.panicked)
  | FrameState.DecodingHeader, _ => (s, src, Outcome.ioErr)

/-- Model of `RLPx::decode_frame`: in `DecodingHeader`, wait for the 32
header bytes, decode and MAC-check the header (`self.secrets` is
unwrapped inside, so absent secrets panic), record the declared body size
in `frame_state`, consume the 32 bytes, and fall through to the body
phase. -/
def decode_frame (C : Crypto) (s : RLPx) (src : List Byte) :
    RLPx × List Byte × Outcome (Option RLPx_Message) :=
  if s.frame_state = FrameState.DecodingHeader then
    match s.secrets with
    | none => (s, src, Outcome.panicked)
    | some sec =>
      if FRAME_HEADER_CIPHERTEXT_SIZE + FRAME_MAC_SIZE ≤ src.length then
        match decode_frame_header C sec src with
        | (sec1, Except.error _) => ({ s with secrets := some sec1 }, src, Outcome.ioErr)
        | (sec1, Except.ok n) =>
          decodeFrameBody C
            { s with secrets := some sec1, frame_state := FrameState.DecodingFrame n }
            (src.drop (FRAME_HEADER_CIPHERTEXT_SIZE + FRAME_MAC_SIZE))
      else (s, src, Outcome.ok none)
  else decodeFrameBody C s src

/-- Model of `RLPx::hello_msg`: build the Hello payload (message id plus
RLP body, from the local public key) and frame it with `write_frame`;
`write_frame` unwraps `self.secrets`, so absent secrets panic. -/
def hello_msg (C : Crypto) (s : RLPx) : Option (RLPx × List Byte) :=
  match s.secrets with
  | none => none
  | some sec =>
    let r := write_frame C sec (C.helloEncode s.public_key)
    some ({ s with secrets := some r.1 }, r.2)

/-- Model of `<RLPx as Decoder>::decode`: empty input reports no event;
`AuthSent` tries the Key-Exchange Provider's decrypt, stores the secrets,
advances to `AuthAckRecieved` and consumes the reported byte count
(`BytesMut::advance` past the end panics, after the state and secrets
were already assigned); `AuthAckRecieved` accepts only a Hello frame and
then becomes `Active`, every other decoded message becoming an error;
`Active` decodes frames freely; all remaining states are an error.
Result: (session after the call, remaining buffer, outcome). -/
def RLPx.decode (C : Crypto) (s : RLPx) (src : List Byte) :
    RLPx × List Byte × Outcome (Option RLPx_Message) :=
  if src.isEmpty then (s, src, Outcome.ok none)
  else
    match s.rlpx_state with
    | RlpxState.AuthSent =>
      match s.ecies.decryptResult src with
      | none => (s, src, Outcome.ioErr)
      | some (_, frame_size) =>
        let sA := { s with secrets := some s.ecies.secretsOut
                           rlpx_state := RlpxState.AuthAckRecieved }
        if src.length < frame_size then (sA, src, Outcome.panicked)
        else
          ({ sA with frame_state := FrameState.DecodingHeader },
           src.drop frame_size, Outcome.ok (some RLPx_Message.AuthAck))
    | RlpxState.AuthAckRecieved =>
      match decode_frame C s src with
      | (s1, src1, Outcome.ok (some RLPx_Message.Hello)) =>
        ({ s1 with rlpx_state := RlpxState.Active }, src1,
         Outcome.ok (some RLPx_Message.Hello))
      | (s1, src1, Outcome.ok none) => (s1, src1, Outcome.ok none)
      | (s1, src1, Outcome.panicked) => (s1, src1, Outcome.panicked)
      | (s1, src1, Outcome.exited) => (s1, src1, Outcome.exited)
      | (s1, src1, _) => (s1, src1, Outcome.ioErr)
    | RlpxState.Active => decode_frame C s src
    | _ => (s, src, Outcome.ioErr)

/-- Model of `<RLPx as Encoder>::encode` writing into `dst`: `Auth`
clears `dst`, emits the stored auth request and unconditionally sets the
state to `AuthSent`; `Hello` appends the framed Hello message (panicking
when secrets are absent); every other message kind is `todo!()` and
panics.  Result: (session after the call, dst after the call, outcome). -/
def RLPx.encode (C : Crypto) (s : RLPx) (item : RLPx_Message) (dst : List Byte) :
    RLPx × List Byte × Outcome Unit :=
  match item with
  | RLPx_Message.Auth =>
    ({ s with rlpx_state := RlpxState.AuthSent }, s.ecies.auth_request, Outcome.ok ())
  | RLPx_Message.Hello =>
    match hello_msg C s with
    | none => (s, dst, Outcome.panicked)
    | some (s1, frame) => (s1, dst ++ frame, Outcome.ok ())
  | _ => (s, dst, Outcome.panicked)

/-- Position of a state in the spec's one-directional order. -/
def stateIdx : RlpxState → Nat
  | RlpxState.ExpectingConnection => 0
  | RlpxState.AuthSent => 1
  | RlpxState.AuthAckRecieved => 2
  | RlpxState.HelloSent => 3
  | RlpxState.HelloRecieved => 4
  | RlpxState.Active => 5
  | RlpxState.Disconnected => 6

/-! Concrete fixtures used by witnesses and counterexamples: a degenerate
but legal instantiation of the ambient crypto (constant digest, identity
block cipher, all-zero keystreams). -/

def ks0 : Keystream := ⟨fun _ => 0, 0⟩

def sec0 : HandshakeSecrets :=
  { aes_keystream_egress := ks0
    aes_keystream_ingress := ks0
    egress_mac := []
    ingress_mac := []
    mac_secret := fun b => b }

def ecies0 : ECIES :=
  { auth_request := [7]
    decryptResult := fun _ => some ([], 1)
    secretsOut := sec0 }

def C0 : Crypto :=
  { keccak := fun _ => List.replicate 32 0
    pubFromSecret := fun n => n
    eciesNew := fun _ _ => ecies0
    helloEncode := fun _ => [0]
    helloDecode := fun _ => some () }

/-- A session sitting in `Active` with secrets present, awaiting a header. -/
def sActive : RLPx :=
  { rlpx_state := RlpxState.Active
    direction := ECIESDirection.Outgoing
    auth_request := []
    ecies := ecies0
    public_key := 0
    frame_state := FrameState.DecodingHeader
    secrets := some sec0 }

/-! Basic lemmas about the keystream model. -/

lemma ksBytes_length (f : Nat → Byte) (p : Nat) (l : List Byte) :
    (ksBytes f p l).length = l.length := by
  induction l generalizing p with
  | nil => rfl
  | cons b t ih => simp [ksBytes, ih]

lemma ksBytes_ksBytes (f : Nat → Byte) (p : Nat) (l : List Byte) :
    ksBytes f p (ksBytes f p l) = l := by
  induction l generalizing p with
  | nil => rfl
  | cons b t ih => simp [ksBytes, ih, Nat.xor_assoc]

lemma take_append_len {α : Type} {l1 l2 : List α} {n : Nat} (h : l1.length = n) :
    (l1 ++ l2).take n = l1 := by
  subst h
  rw [List.take_append_of_le_length le_rfl, List.take_length]

lemma drop_append_len {α : Type} {l1 l2 : List α} {n : Nat} (h : l1.length = n) :
    (l1 ++ l2).drop n = l2 := by
  subst h
  rw [List.drop_append_of_le_length le_rfl, List.drop_length, List.nil_append]

lemma frameHeaderPlain_length (data : List Byte) : (frameHeaderPlain data).length = 16 := rfl

/-! Length facts about the frame components. -/

lemma pad16_ge (n : Nat) : n ≤ pad16 n := by
  unfold pad16
  split <;> omega

lemma padBody_length (data : List Byte) : (padBody data).length = pad16 data.length := by
  have h := pad16_ge data.length
  simp [padBody]
  omega

lemma headerCtOf_length (sec : HandshakeSecrets) (data : List Byte) :
    (headerCtOf sec data).length = 16 := by
  simp [headerCtOf, ksBytes_length, frameHeaderPlain_length]

lemma frameCtOf_length (sec : HandshakeSecrets) (data : List Byte) :
    (frameCtOf sec data).length = pad16 data.length := by
  simp [frameCtOf, ksBytes_length, padBody_length]

/-! The codec never touches `rlpx_state` or `direction`; only the stream
entry points change the state. -/

lemma decodeFrameBody_rlpx_state (C : Crypto) (s : RLPx) (src : List Byte) :
    (decodeFrameBody C s src).1.rlpx_state = s.rlpx_state := by
  unfold decodeFrameBody
  repeat' split
  all_goals rfl

lemma decodeFrameBody_direction (C : Crypto) (s : RLPx) (src : List Byte) :
    (decodeFrameBody C s src).1.direction = s.direction := by
  unfold decodeFrameBody
  repeat' split
  all_goals rfl

lemma decode_frame_rlpx_state (C : Crypto) (s : RLPx) (src : List Byte) :
    (decode_frame C s src).1.rlpx_state = s.rlpx_state := by
  unfold decode_frame
  repeat' split
  all_goals first
    | rfl
    | exact decodeFrameBody_rlpx_state _ _ _

lemma decode_frame_direction (C : Crypto) (s : RLPx) (src : List Byte) :
    (decode_frame C s src).1.direction = s.direction := by
  unfold decode_frame
  repeat' split
  all_goals first
    | rfl
    | exact decodeFrameBody_direction _ _ _

lemma hello_msg_some (C : Crypto) (s s1 : RLPx) (fr : List Byte)
    (h : hello_msg C s = some (s1, fr)) :
    s1.rlpx_state = s.rlpx_state ∧ s1.direction = s.direction := by
  unfold hello_msg at h
  cases hsec : s.secrets with
  | none => rw [hsec] at h; exact absurd h (by simp)
  | some sec =>
    rw [hsec] at h
    simp only [Option.some.injEq, Prod.mk.injEq] at h
    rw [← h.1]
    exact ⟨rfl, rfl⟩

lemma decode_direction (C : Crypto) (s : RLPx) (src : List Byte) :
    (RLPx.decode C s src).1.direction = s.direction := by
  unfold RLPx.decode
  repeat' split
  all_goals try rfl
  all_goals try exact decode_frame_direction _ _ _
  all_goals
    rename_i heq
    have h := decode_frame_direction C s src
    rw [heq] at h
    exact h

lemma encode_direction (C : Crypto) (s : RLPx) (item : RLPx_Message) (dst : List Byte) :
    (RLPx.encode C s item dst).1.direction = s.direction := by
  unfold RLPx.encode
  repeat' split
  all_goals try rfl
  rename_i s1 fr heq
  exact (hello_msg_some C s s1 fr heq).2

lemma decode_state_monotone (C : Crypto) (s : RLPx) (src : List Byte) :
    stateIdx s.rlpx_state ≤ stateIdx (RLPx.decode C s src).1.rlpx_state := by
  unfold RLPx.decode
  split
  · exact Nat.le_refl _
  split
  · -- AuthSent
    rename_i hst
    split
    · simp [hst]
    · split
      · simp [hst, stateIdx]
      · simp [hst, stateIdx]
  · -- AuthAckRecieved
    rename_i hst
    split
    · simp [hst, stateIdx]
    all_goals
      rename_i heq
      have h := decode_frame_rlpx_state C s src
      rw [heq] at h
      exact Nat.le_of_eq (congrArg stateIdx h.symm)
  · -- Active
    have h := decode_frame_rlpx_state C s src
    simp [h]
  all_goals exact Nat.le_refl _

/-- C8 counterexample: from `Active`, encoding an `Auth` message moves the
session back to `AuthSent` — a strictly earlier state in the spec's
order, so the claimed one-directionality fails. -/
theorem encode_auth_backward_counterexample :
    stateIdx (RLPx.encode C0 sActive RLPx_Message.Auth []).1.rlpx_state <
      stateIdx sActive.rlpx_state := by
  decide

/-- C8 (amended): the decode entry point never moves the session state
backward in the order ExpectingConnection, AuthSent, AuthAckRecieved,
HelloSent, HelloRecieved, Active, Disconnected; the encode entry point
leaves the state unchanged except for `Auth`, which unconditionally sets
`AuthSent` — a backward move when invoked from any later state,
Disconnected included. -/
theorem state_transition_discipline (C : Crypto) (s : RLPx) (src dst : List Byte)
    (item : RLPx_Message) :
    stateIdx s.rlpx_state ≤ stateIdx (RLPx.decode C s src).1.rlpx_state ∧
    (item = RLPx_Message.Auth →
      (RLPx.encode C s item dst).1.rlpx_state = RlpxState.AuthSent) ∧
    (item ≠ RLPx_Message.Auth →
      (RLPx.encode C s item dst).1.rlpx_state = s.rlpx_state) := by
  refine ⟨decode_state_monotone C s src, ?_, ?_⟩
  · intro h
    subst h
    rfl
  · intro h
    unfold RLPx.encode
    repeat' split
    all_goals try rfl
    · exact absurd rfl h
    · rename_i s1 fr heq
      exact (hello_msg_some C s s1 fr heq).1

/-- C8 witness: the amended claim applied at a concrete `Active` session
for decode, encode of `Auth` and encode of a non-`Auth` message. -/
theorem state_transition_discipline_witness :
    stateIdx sActive.rlpx_state ≤ stateIdx (RLPx.decode C0 sActive []).1.rlpx_state ∧
    (RLPx.encode C0 sActive RLPx_Message.Auth []).1.rlpx_state = RlpxState.AuthSent ∧
    (RLPx.encode C0 sActive RLPx_Message.Hello []).1.rlpx_state = sActive.rlpx_state :=
  ⟨(state_transition_discipline C0 sActive [] [] RLPx_Message.Auth).1,
   (state_transition_discipline C0 sActive [] [] RLPx_Message.Auth).2.1 rfl,
   (state_transition_discipline C0 sActive [] [] RLPx_Message.Hello).2.2 (by decide)⟩

/-- C9: every session built by `RLPx::new` has direction `Outgoing`, and
neither decode nor encode ever changes a session's direction, so no
`Incoming` session can arise through the public interface. -/
theorem direction_always_outgoing (C : Crypto) (sk pk : Nat) (s : RLPx)
    (src dst : List Byte) (item : RLPx_Message) :
    (RLPx.new C sk pk).direction = ECIESDirection.Outgoing ∧
    (RLPx.decode C s src).1.direction = s.direction ∧
    (RLPx.encode C s item dst).1.direction = s.direction :=
  ⟨rfl, decode_direction C s src, encode_direction C s item dst⟩

/-- C10: `write_frame` accepts every body (it totally computes a frame
whose first 16 bytes are the encrypted plaintext header), and the
big-endian 16-bit length field at bytes 1–2 of that plaintext header is
the body length reduced modulo 2^16 — oversized bodies are silently
truncated, not rejected. -/
theorem write_frame_truncates_length (C : Crypto) (sec : HandshakeSecrets)
    (data : List Byte) :
    ((write_frame C sec data).2).take 16 = headerCtOf sec data ∧
    (frameHeaderPlain data).getD 1 0 * 256 + (frameHeaderPlain data).getD 2 0 =
      data.length % 65536 := by
  constructor
  · show (headerCtOf sec data ++ _).take 16 = headerCtOf sec data
    exact take_append_len (headerCtOf_length sec data)
  · have h1 : (frameHeaderPlain data).getD 1 0 = data.length % 65536 / 256 % 256 := rfl
    have h2 : (frameHeaderPlain data).getD 2 0 = data.length % 65536 % 256 := rfl
    have harith : ∀ L : Nat, L % 65536 / 256 % 256 * 256 + L % 65536 % 256 = L % 65536 :=
      fun L => by omega
    rw [h1, h2]
    exact harith data.length

/-- C2 (code-bug evidence): a session awaiting a declared 16-byte frame
body, handed a buffer holding exactly those 16 bytes but not the trailing
16-byte MAC, panics inside `decode_frame` — the guard compares against
`frame_ciphertext_size` but the subsequent slice needs
`frame_ciphertext_size + FRAME_MAC_SIZE` bytes — instead of returning the
claimed `Ok(None)`. -/
theorem decode_panics_on_body_sized_buffer :
    (RLPx.decode C0 { sActive with frame_state := FrameState.DecodingFrame 16 }
      (List.replicate 16 0)).2.2 = Outcome.panicked ∧
    (List.replicate 16 0 : List Byte).length < 16 + FRAME_MAC_SIZE := by
  decide

/-! C3/C4 fixtures: a session in `AuthAckRecieved`, a well-formed frame
(under the degenerate crypto) carrying the non-Hello message id 2, and a
32-byte header record whose received MAC mismatches. -/

def sAuthAck : RLPx := { sActive with rlpx_state := RlpxState.AuthAckRecieved }

def srcNonHello : List Byte :=
  ([0, 0, 16] ++ List.replicate 13 0) ++ List.replicate 16 0 ++
    (2 :: List.replicate 15 0) ++ List.replicate 16 0

def srcBadMac : List Byte := List.replicate 16 0 ++ List.replicate 16 1

/-- C3 counterexample: in `AuthAckRecieved`, a well-formed frame whose
message id is 2 (not Hello) makes decode hit `process::exit(0)` — the
call does not return a disconnect error and the session never reaches
`Disconnected`. -/
theorem nonHello_exits_counterexample :
    (RLPx.decode C0 sAuthAck srcNonHello).2.2 = Outcome.exited ∧
    (RLPx.decode C0 sAuthAck srcNonHello).1.rlpx_state ≠ RlpxState.Disconnected := by
  decide

/-- Helper: `decode_frame` on a well-formed frame carrying a non-Hello
message id reaches `process::exit(0)`. -/
lemma decode_frame_exits (C : Crypto) (s : RLPx) (src : List Byte)
    (sec sec1 sec2 : HandshakeSecrets) (n mid : Nat) (pt : List Byte)
    (hfs : s.frame_state = FrameState.DecodingHeader)
    (hsec : s.secrets = some sec)
    (h32 : 32 ≤ src.length)
    (hhdr : decode_frame_header C sec src = (sec1, Except.ok n))
    (hbody : n + 16 ≤ src.length - 32)
    (hct : decode_frame_ciphertext C sec1 ((src.drop 32).take (n + 16)) =
      (sec2, Except.ok pt))
    (hlen : 1 ≤ pt.length)
    (hid : rlpDecodeU8 (pt.take 1) = some mid)
    (hnh : mid ≠ HelloID) :
    decode_frame C s src =
      ({ s with secrets := some sec2, frame_state := FrameState.DecodingFrame n },
       src.drop 32, Outcome.exited) := by
  have hc : FRAME_HEADER_CIPHERTEXT_SIZE + FRAME_MAC_SIZE = 32 := rfl
  have hdlen : (src.drop 32).length = src.length - 32 := List.length_drop 32 src
  unfold decode_frame
  rw [hfs, if_pos rfl, hsec]
  simp only [hc]
  rw [if_pos h32, hhdr]
  unfold decodeFrameBody
  simp only []
  have h1 : n ≤ (src.drop 32).length := by rw [hdlen]; omega
  have h2 : ¬((src.drop 32).length < n + FRAME_MAC_SIZE) := by
    have : FRAME_MAC_SIZE = 16 := rfl
    rw [this, hdlen]
    omega
  rw [if_pos h1, if_neg h2]
  have hdata : decode_frame_data C pt = FrameDataResult.exited := by
    unfold decode_frame_data
    rw [if_neg (show ¬pt.length < 1 by omega), hid]
    exact if_neg hnh
  have h16 : FRAME_MAC_SIZE = 16 := rfl
  rw [h16]
  simp only [hct, hdata]

/-- C3 (amended): a session in `AuthAckRecieved` that receives a
well-formed frame carrying a message id other than Hello does not get a
disconnect error back — `decode_frame_data` terminates the process via
`process::exit(0)`; the session state is still `AuthAckRecieved`, never
`Disconnected` (the MAC accumulators were, however, already advanced by
the header and frame checks before the exit). -/
theorem nonHello_exits (C : Crypto) (s : RLPx) (src : List Byte)
    (sec sec1 sec2 : HandshakeSecrets) (n mid : Nat) (pt : List Byte)
    (hst : s.rlpx_state = RlpxState.AuthAckRecieved)
    (hfs : s.frame_state = FrameState.DecodingHeader)
    (hsec : s.secrets = some sec)
    (h32 : 32 ≤ src.length)
    (hhdr : decode_frame_header C sec src = (sec1, Except.ok n))
    (hbody : n + 16 ≤ src.length - 32)
    (hct : decode_frame_ciphertext C sec1 ((src.drop 32).take (n + 16)) =
      (sec2, Except.ok pt))
    (hlen : 1 ≤ pt.length)
    (hid : rlpDecodeU8 (pt.take 1) = some mid)
    (hnh : mid ≠ HelloID) :
    (RLPx.decode C s src).2.2 = Outcome.exited ∧
    (RLPx.decode C s src).1.rlpx_state = RlpxState.AuthAckRecieved := by
  have hne : src.isEmpty = false := by
    cases src with
    | nil => simp at h32
    | cons a t => rfl
  have hd := decode_frame_exits C s src sec sec1 sec2 n mid pt hfs hsec h32 hhdr hbody
    hct hlen hid hnh
  unfold RLPx.decode
  rw [hne]
  simp only [Bool.false_eq_true, if_false, hst]
  rw [hd]
  exact ⟨rfl, hst⟩

/-- C3 witness: the amended claim applied to the concrete non-Hello frame. -/
theorem nonHello_exits_witness :
    (RLPx.decode C0 sAuthAck srcNonHello).2.2 = Outcome.exited ∧
    (RLPx.decode C0 sAuthAck srcNonHello).1.rlpx_state = RlpxState.AuthAckRecieved :=
  nonHello_exits C0 sAuthAck srcNonHello sec0
    (decode_frame_header C0 sec0 srcNonHello).1
    (decode_frame_ciphertext C0 (decode_frame_header C0 sec0 srcNonHello).1
      ((srcNonHello.drop 32).take 32)).1
    16 2 (2 :: List.replicate 15 0)
    rfl rfl rfl (by decide) rfl (by decide) rfl (by decide) rfl (by decide)

/-- C4 counterexample: an `Active` session fed a 32-byte header record
whose received MAC mismatches gets an error back, but its state stays
`Active` — the code never transitions to `Disconnected`. -/
theorem auth_failure_not_disconnected_counterexample :
    (RLPx.decode C0 sActive srcBadMac).2.2 = Outcome.ioErr ∧
    (RLPx.decode C0 sActive srcBadMac).1.rlpx_state = RlpxState.Active := by
  decide

/-- C4 (amended): whenever a decode call fails with an error — which
covers header MAC mismatch, frame MAC mismatch and key-exchange
decryption failure — the session's state is left exactly as it was; the
implementation never assigns `Disconnected`. -/
theorem decode_error_preserves_state (C : Crypto) (s : RLPx) (src : List Byte) :
    (RLPx.decode C s src).2.2 = Outcome.ioErr →
    (RLPx.decode C s src).1.rlpx_state = s.rlpx_state := by
  unfold RLPx.decode
  repeat' split
  all_goals intro h
  all_goals try rfl
  all_goals try exact decode_frame_rlpx_state C s src
  all_goals try simp at h
  all_goals
    rename_i heq
    have h2 := decode_frame_rlpx_state C s src
    rw [heq] at h2
    exact h2

/-- C4 witness: the amended claim applied at the concrete MAC-mismatch
input. -/
theorem decode_error_preserves_state_witness :
    (RLPx.decode C0 sActive srcBadMac).1.rlpx_state = sActive.rlpx_state :=
  decode_error_preserves_state C0 sActive srcBadMac (by decide)

/-- C5: when the recomputed header MAC (resp. frame MAC) differs from the
received one, `decode_frame_header` (resp. `decode_frame_ciphertext`)
returns an error and leaves the ingress keystream untouched — the
ciphertext is never decrypted, so no plaintext bytes reach the caller. -/
theorem mac_mismatch_no_decrypt (C : Crypto) (sec : HandshakeSecrets) (d e : List Byte) :
    (32 ≤ d.length →
      headerMacComputed C sec (d.take 16) ≠ (d.drop 16).take 16 →
      (decode_frame_header C sec d).2 = Except.error "Header MAC mismatch!" ∧
      (decode_frame_header C sec d).1.aes_keystream_ingress = sec.aes_keystream_ingress) ∧
    (16 ≤ e.length →
      frameMacComputed C sec (e.take (e.length - 16)) ≠ e.drop (e.length - 16) →
      (decode_frame_ciphertext C sec e).2 = Except.error "Frame MAC mismatch!" ∧
      (decode_frame_ciphertext C sec e).1.aes_keystream_ingress =
        sec.aes_keystream_ingress) := by
  constructor
  · intro h32 hm2
    have hy : ¬d.length < FRAME_HEADER_CIPHERTEXT_SIZE := by
      have h : FRAME_HEADER_CIPHERTEXT_SIZE = 16 := rfl
      omega
    have hr : ¬(d.drop 16).length < FRAME_MAC_SIZE := by
      have h1 : (d.drop 16).length = d.length - 16 := List.length_drop _ _
      have h : FRAME_MAC_SIZE = 16 := rfl
      omega
    simp only [decode_frame_header, if_neg hy, if_neg hr, if_pos hm2]
    exact ⟨trivial, trivial⟩
  · intro h16 hm2
    have hy : ¬e.length < FRAME_MAC_SIZE := by
      have h : FRAME_MAC_SIZE = 16 := rfl
      omega
    simp only [decode_frame_ciphertext, if_neg hy, if_pos hm2]
    exact ⟨trivial, trivial⟩

/-- C5 witness: both mismatch branches exercised on a concrete 32-byte
input whose received MACs are wrong. -/
theorem mac_mismatch_no_decrypt_witness :
    (decode_frame_header C0 sec0 srcBadMac).2 = Except.error "Header MAC mismatch!" ∧
    (decode_frame_ciphertext C0 sec0 srcBadMac).2 = Except.error "Frame MAC mismatch!" := by
  have h := mac_mismatch_no_decrypt C0 sec0 srcBadMac srcBadMac
  exact ⟨(h.1 (by decide) (by decide)).1, (h.2 (by decide) (by decide)).1⟩

/-- The header plaintext `decode_frame_header` obtains by applying the
ingress keystream to the first 16 input bytes. -/
def decryptedHeader (sec : HandshakeSecrets) (d : List Byte) : List Byte :=
  ksBytes sec.aes_keystream_ingress.f sec.aes_keystream_ingress.pos (d.take 16)

/-! C6 fixtures: two MAC-valid header records that agree on bytes 1–2 of
the decrypted header and differ only in byte 0. -/

def dHdr65552 : List Byte := ([1, 0, 16] ++ List.replicate 13 0) ++ List.replicate 16 0

def dHdr16 : List Byte := ([0, 0, 16] ++ List.replicate 13 0) ++ List.replicate 16 0

/-- C6 counterexample: two header records whose decrypted headers agree on
bytes 1–2 (the 16-bit field is 16 in both) but differ in byte 0 decode to
different lengths — 65552 versus 16 — so byte 0 of the header does
influence the returned length, and the result is not the rounded 16-bit
field (which would be 16 for both). -/
theorem header_length_byte0_counterexample :
    (decode_frame_header C0 sec0 dHdr65552).2 = Except.ok 65552 ∧
    (decode_frame_header C0 sec0 dHdr16).2 = Except.ok 16 ∧
    (decryptedHeader sec0 dHdr65552).getD 1 0 = (decryptedHeader sec0 dHdr16).getD 1 0 ∧
    (decryptedHeader sec0 dHdr65552).getD 2 0 = (decryptedHeader sec0 dHdr16).getD 2 0 ∧
    (65552 : Nat) ≠ 16 :=
  ⟨rfl, rfl, rfl, rfl, by decide⟩

/-- C6 (amended): on a 32-byte input whose header MAC verifies,
`decode_frame_header` returns the big-endian 24-bit value of bytes 0–2 of
the decrypted header — byte 0 included, not only the 16-bit field at
bytes 1–2 — rounded up to the next multiple of 16. -/
theorem decode_header_length_bytes012 (C : Crypto) (sec : HandshakeSecrets) (d : List Byte)
    (h32 : 32 ≤ d.length)
    (hmac : headerMacComputed C sec (d.take 16) = (d.drop 16).take 16) :
    (decode_frame_header C sec d).2 =
      Except.ok (pad16 ((decryptedHeader sec d).getD 0 0 * 65536 +
        (decryptedHeader sec d).getD 1 0 * 256 + (decryptedHeader sec d).getD 2 0)) := by
  have hy : ¬d.length < FRAME_HEADER_CIPHERTEXT_SIZE := by
    have h : FRAME_HEADER_CIPHERTEXT_SIZE = 16 := rfl
    omega
  have hr : ¬(d.drop 16).length < FRAME_MAC_SIZE := by
    have h1 : (d.drop 16).length = d.length - 16 := List.length_drop _ _
    have h : FRAME_MAC_SIZE = 16 := rfl
    omega
  have hpad : ∀ m : Nat, (if m % 16 ≠ 0 then (m / 16 + 1) * 16 else m) = pad16 m := by
    intro m
    unfold pad16
    by_cases hm : m % 16 = 0
    · simp [hm]
    · simp [hm]
      rw [if_pos (Nat.pos_of_ne_zero hm)]
  simp only [decode_frame_header, if_neg hy, if_neg hr,
    if_neg (not_not_intro hmac), Keystream.apply, decryptedHeader]
  rw [hpad]

/-- C6 witness: the amended claim applied at the concrete byte-0 header. -/
theorem decode_header_length_bytes012_witness :
    (decode_frame_header C0 sec0 dHdr65552).2 =
      Except.ok (pad16 ((decryptedHeader sec0 dHdr65552).getD 0 0 * 65536 +
        (decryptedHeader sec0 dHdr65552).getD 1 0 * 256 +
        (decryptedHeader sec0 dHdr65552).getD 2 0)) :=
  decode_header_length_bytes012 C0 sec0 dHdr65552 (by decide) (by decide)

/-- C7 fixture: a session sitting in `AuthSent` with no secrets yet. -/
def sAuthSent : RLPx := { sActive with rlpx_state := RlpxState.AuthSent, secrets := none }

/-- C7: an `AuthSent` decode whose Key-Exchange decrypt succeeds stores
the provider's secrets (present afterwards), transitions to
`AuthAckRecieved`, consumes exactly the reported number of bytes, and
leaves the rest of the buffer. -/
theorem authsent_success_transition (C : Crypto) (s : RLPx) (src pt : List Byte) (n : Nat)
    (hst : s.rlpx_state = RlpxState.AuthSent)
    (hne : src ≠ [])
    (hdec : s.ecies.decryptResult src = some (pt, n))
    (hn : n ≤ src.length) :
    RLPx.decode C s src =
      ({ s with secrets := some s.ecies.secretsOut
                rlpx_state := RlpxState.AuthAckRecieved
                frame_state := FrameState.DecodingHeader },
       src.drop n, Outcome.ok (some RLPx_Message.AuthAck)) ∧
    (RLPx.decode C s src).1.secrets.isSome = true := by
  have hemp : src.isEmpty = false := by
    cases src with
    | nil => exact absurd rfl hne
    | cons a t => rfl
  have hmain : RLPx.decode C s src =
      ({ s with secrets := some s.ecies.secretsOut
                rlpx_state := RlpxState.AuthAckRecieved
                frame_state := FrameState.DecodingHeader },
       src.drop n, Outcome.ok (some RLPx_Message.AuthAck)) := by
    unfold RLPx.decode
    rw [hemp]
    simp only [Bool.false_eq_true, if_false, hst, hdec]
    rw [if_neg (show ¬src.length < n by omega)]
  exact ⟨hmain, by rw [hmain]; rfl⟩

/-- C7 witness: the transition applied to a concrete `AuthSent` session. -/
theorem authsent_success_transition_witness :
    RLPx.decode C0 sAuthSent [5] =
      ({ sAuthSent with secrets := some sAuthSent.ecies.secretsOut
                        rlpx_state := RlpxState.AuthAckRecieved
                        frame_state := FrameState.DecodingHeader },
       ([5] : List Byte).drop 1, Outcome.ok (some RLPx_Message.AuthAck)) ∧
    (RLPx.decode C0 sAuthSent [5]).1.secrets.isSome = true :=
  authsent_success_transition C0 sAuthSent [5] [] 1 rfl (by decide) rfl (by decide)

/-! Round-trip machinery for C1. -/

lemma ite_pad16 (m : Nat) : (if m % 16 ≠ 0 then (m / 16 + 1) * 16 else m) = pad16 m := by
  unfold pad16
  by_cases hm : m % 16 = 0
  · simp [hm]
  · simp [hm]
    rw [if_pos (Nat.pos_of_ne_zero hm)]

lemma frameHeaderPlain_payload (data : List Byte) (hlen : data.length < 65536) :
    (frameHeaderPlain data).getD 0 0 * 65536 + (frameHeaderPlain data).getD 1 0 * 256 +
      (frameHeaderPlain data).getD 2 0 = data.length := by
  have h0 : (frameHeaderPlain data).getD 0 0 = 0 := rfl
  have h1 : (frameHeaderPlain data).getD 1 0 = data.length % 65536 / 256 % 256 := rfl
  have h2 : (frameHeaderPlain data).getD 2 0 = data.length % 65536 % 256 := rfl
  rw [h0, h1, h2]
  have harith : ∀ L : Nat, L < 65536 →
      0 * 65536 + L % 65536 / 256 % 256 * 256 + L % 65536 % 256 = L :=
    fun L hL => by omega
  exact harith data.length hlen

/-- Decoding the header of a frame produced by `write_frame` with
mirrored ingress state succeeds: the recomputed MAC agrees with the
emitted one, the ingress MAC accumulator ends up in the encoder's
post-header state, the ingress keystream advances by 16, and the declared
body size is the padded body length. -/
lemma decode_header_of_write (C : Crypto) (secE secD : HandshakeSecrets) (data : List Byte)
    (hk : ∀ l, (C.keccak l).length = 32)
    (hlen : data.length < 65536)
    (hks : secD.aes_keystream_ingress = secE.aes_keystream_egress)
    (hm : secD.ingress_mac = secE.egress_mac)
    (hms : secD.mac_secret = secE.mac_secret) :
    decode_frame_header C secD (write_frame C secE data).2 =
      ({ secD with
          ingress_mac := egressMac1 C secE data
          aes_keystream_ingress :=
            ⟨secE.aes_keystream_egress.f, secE.aes_keystream_egress.pos + 16⟩ },
       Except.ok (pad16 data.length)) := by
  have hF : (write_frame C secE data).2 =
      headerCtOf secE data ++
        (headerMacOf C secE data ++ (frameCtOf secE data ++ frameMacOf C secE data)) := by
    simp only [write_frame]
    simp [List.append_assoc]
  have lh := headerCtOf_length secE data
  have lhm : (headerMacOf C secE data).length = 16 := by
    simp [headerMacOf, List.length_take, hk]
  have htake : ((write_frame C secE data).2).take 16 = headerCtOf secE data := by
    rw [hF]
    exact take_append_len lh
  have hdrop : ((write_frame C secE data).2).drop 16 =
      headerMacOf C secE data ++ (frameCtOf secE data ++ frameMacOf C secE data) := by
    rw [hF]
    exact drop_append_len lh
  have hmtake : (((write_frame C secE data).2).drop 16).take 16 = headerMacOf C secE data := by
    rw [hdrop]
    exact take_append_len lhm
  have hc1 : ¬((write_frame C secE data).2).length < FRAME_HEADER_CIPHERTEXT_SIZE := by
    have hl : ((write_frame C secE data).2).length =
        16 + (headerMacOf C secE data ++ (frameCtOf secE data ++ frameMacOf C secE data)).length := by
      rw [hF, List.length_append, lh]
    have hfc : FRAME_HEADER_CIPHERTEXT_SIZE = 16 := rfl
    omega
  have hc2 : ¬(((write_frame C secE data).2).drop 16).length < FRAME_MAC_SIZE := by
    have hl : (((write_frame C secE data).2).drop 16).length =
        16 + (frameCtOf secE data ++ frameMacOf C secE data).length := by
      rw [hdrop, List.length_append, lhm]
    have hfc : FRAME_MAC_SIZE = 16 := rfl
    omega
  have hmaceq : headerMacComputed C secD (((write_frame C secE data).2).take 16) =
      (((write_frame C secE data).2).drop 16).take 16 := by
    rw [htake, hmtake]
    unfold headerMacComputed headerMacSeed headerMacOf egressMac1
    rw [hm, hms]
  simp only [decode_frame_header, if_neg hc1, if_neg hc2, Keystream.apply, htake]
  simp only [headerMacSeed, egressMac1, headerCtOf, ksBytes_length, frameHeaderPlain_length,
    hks, hm, hms, ksBytes_ksBytes]
  rw [frameHeaderPlain_payload data hlen, ite_pad16]
  rw [htake] at hmaceq
  simp only [headerCtOf] at hmaceq
  rw [if_neg (not_not_intro hmaceq)]

/-- Decoding the body ciphertext emitted by `write_frame`, with the
ingress state mirroring the encoder's post-header egress state, succeeds
and recovers the zero-padded body. -/
lemma decode_ciphertext_of_write (C : Crypto) (secE sec2 : HandshakeSecrets) (data : List Byte)
    (hk : ∀ l, (C.keccak l).length = 32)
    (hks2 : sec2.aes_keystream_ingress =
      ⟨secE.aes_keystream_egress.f,
       secE.aes_keystream_egress.pos + (frameHeaderPlain data).length⟩)
    (hm2 : sec2.ingress_mac = egressMac1 C secE data)
    (hms2 : sec2.mac_secret = secE.mac_secret) :
    (decode_frame_ciphertext C sec2 (frameCtOf secE data ++ frameMacOf C secE data)).2 =
      Except.ok (padBody data) := by
  have lf := frameCtOf_length secE data
  have lfm : (frameMacOf C secE data).length = 16 := by
    simp [frameMacOf, List.length_take, hk]
  have he : (frameCtOf secE data ++ frameMacOf C secE data).length = pad16 data.length + 16 := by
    rw [List.length_append, lf, lfm]
  have hc1 : ¬(frameCtOf secE data ++ frameMacOf C secE data).length < FRAME_MAC_SIZE := by
    have hfc : FRAME_MAC_SIZE = 16 := rfl
    omega
  have lf2 : (frameCtOf secE data).length =
      (frameCtOf secE data ++ frameMacOf C secE data).length - 16 := by
    omega
  have htake : (frameCtOf secE data ++ frameMacOf C secE data).take
      ((frameCtOf secE data ++ frameMacOf C secE data).length - 16) = frameCtOf secE data :=
    take_append_len lf2
  have hdrop : (frameCtOf secE data ++ frameMacOf C secE data).drop
      ((frameCtOf secE data ++ frameMacOf C secE data).length - 16) = frameMacOf C secE data :=
    drop_append_len lf2
  have hmaceq : frameMacComputed C sec2
      ((frameCtOf secE data ++ frameMacOf C secE data).take
        ((frameCtOf secE data ++ frameMacOf C secE data).length - 16)) =
      (frameCtOf secE data ++ frameMacOf C secE data).drop
        ((frameCtOf secE data ++ frameMacOf C secE data).length - 16) := by
    rw [htake, hdrop]
    unfold frameMacComputed frameMacOf egressMac3 egressMac2
    rw [hm2, hms2]
  simp only [decode_frame_ciphertext, Keystream.apply]
  rw [if_neg hc1, if_neg (not_not_intro hmaceq)]
  rw [htake, hks2]
  simp only [frameCtOf, ksBytes_ksBytes]

/-- C1: encoding any body of fewer than 65536 bytes with `write_frame`
and decoding the resulting frame with `decode_frame_header` followed by
`decode_frame_ciphertext`, with the decoder's ingress state equal to the
encoder's egress state, succeeds: the header decode declares the padded
body length and the body decode returns the body zero-padded to the next
16-byte boundary, whose first `data.length` bytes are the body exactly. -/
theorem roundtrip_write_decode (C : Crypto) (secE secD : HandshakeSecrets) (data : List Byte)
    (hk : ∀ l, (C.keccak l).length = 32)
    (hlen : data.length < 65536)
    (hks : secD.aes_keystream_ingress = secE.aes_keystream_egress)
    (hm : secD.ingress_mac = secE.egress_mac)
    (hms : secD.mac_secret = secE.mac_secret) :
    (decode_frame_header C secD (write_frame C secE data).2).2 =
      Except.ok (pad16 data.length) ∧
    (decode_frame_ciphertext C (decode_frame_header C secD (write_frame C secE data).2).1
        (((write_frame C secE data).2).drop 32)).2 = Except.ok (padBody data) ∧
    (padBody data).take data.length = data := by
  have hA := decode_header_of_write C secE secD data hk hlen hks hm hms
  have lh := headerCtOf_length secE data
  have lhm : (headerMacOf C secE data).length = 16 := by
    simp [headerMacOf, List.length_take, hk]
  have hdrop32 : ((write_frame C secE data).2).drop 32 =
      frameCtOf secE data ++ frameMacOf C secE data := by
    have hF : (write_frame C secE data).2 =
        (headerCtOf secE data ++ headerMacOf C secE data) ++
          (frameCtOf secE data ++ frameMacOf C secE data) := by
      simp only [write_frame]
      simp [List.append_assoc]
    rw [hF]
    exact drop_append_len (by rw [List.length_append, lh, lhm])
  refine ⟨?_, ?_, ?_⟩
  · rw [hA]
  · rw [hA, hdrop32]
    exact decode_ciphertext_of_write C secE _ data hk rfl rfl hms
  · exact take_append_len rfl

/-- C1 witness: the round trip evaluated on the concrete body [1, 2, 3]
with matching degenerate secrets on both sides. -/
theorem roundtrip_write_decode_witness :
    (decode_frame_header C0 sec0 (write_frame C0 sec0 [1, 2, 3]).2).2 =
      Except.ok (pad16 ([1, 2, 3] : List Byte).length) ∧
    (decode_frame_ciphertext C0
        (decode_frame_header C0 sec0 (write_frame C0 sec0 [1, 2, 3]).2).1
        (((write_frame C0 sec0 [1, 2, 3]).2).drop 32)).2 =
      Except.ok (padBody [1, 2, 3]) ∧
    (padBody [1, 2, 3]).take ([1, 2, 3] : List Byte).length = [1, 2, 3] :=
  roundtrip_write_decode C0 sec0 sec0 [1, 2, 3] (fun _ => rfl) (by decide) rfl rfl rfl

end RethHandshake
